import Mathlib

/-!
# Verification of the `active-recall` subprocess helpers

Shallow embedding of the two Python helpers of this repository:

* `src/src/main/services/preprocessing/impl/spellcheck.py` — the
  `SpellChecker` class: tokenizer, eligibility filter, correction engine
  and case preservation.  Strings are modelled as `List Char`; the
  Python `str` methods used by the source (`lower`, `upper`,
  `capitalize`, `isupper`, `isspace`, `strip`, `startswith`) are
  modelled character-exactly over ASCII letters, which is the alphabet
  the source's own regexes (`[A-Z]`, `[0-9a-fA-F]`, `\d`) operate on.
* `src/src/main/services/analysis/python/huggingface_classifier.py` —
  the stdin/stdout command loop.  The external zero-shot model and the
  external `symspellpy` dictionary engine are out of scope per the spec
  and are modelled as opaque function parameters.

Theorems `c1_*` … `c10_*` settle the corresponding claims.
-/

namespace ActiveRecall

/-! ## Python whitespace

One character predicate modelling both `str.isspace` per character and
the `\s` class of the `re` module on `str` patterns (they agree on every
character the CPython implementation treats as whitespace). -/

/-- The characters Python treats as whitespace. -/
def py_space_chars : List Char :=
  [' ', '\t', '\n', '\r', '\x0b', '\x0c', '\x1c', '\x1d', '\x1e', '\x1f',
   '\x85', '\xa0', '\u1680', '\u2000', '\u2001', '\u2002', '\u2003',
   '\u2004', '\u2005', '\u2006', '\u2007', '\u2008', '\u2009', '\u200a',
   '\u2028', '\u2029', '\u202f', '\u205f', '\u3000']

/-- Whether `c` is a Python whitespace character. -/
def is_py_space (c : Char) : Bool :=
  py_space_chars.contains c

/-- Python `token.isspace()`: nonempty and every character whitespace. -/
def py_token_isspace (t : List Char) : Bool :=
  !t.isEmpty && t.all is_py_space

/-! ## Tokenizer

`_tokenize(text)` is `re.findall(r'(\S+|\s+)', text)`: the maximal runs
of non-whitespace and of whitespace, in order.  `tok_aux` carries the
current run (reversed) and its class. -/

/-- Accumulating worker for `tokenize`: `cur` is the reversed current
run, `b` its whitespace class. -/
def tok_aux (cur : List Char) (b : Bool) : List Char → List (List Char)
  | [] => [cur.reverse]
  | c :: cs =>
    if is_py_space c = b then tok_aux (c :: cur) b cs
    else cur.reverse :: tok_aux [c] (is_py_space c) cs

/-- Models `SpellChecker._tokenize`: split into maximal alternating runs of
non-whitespace and whitespace (`re.findall(r'(\S+|\s+)', text)`). -/
def tokenize : List Char → List (List Char)
  | [] => []
  | c :: cs => tok_aux [c] (is_py_space c) cs

/-- The whitespace class of a token (class of its first character). -/
def tok_class (t : List Char) : Bool :=
  t.head?.elim false is_py_space

/-! ## Punctuation stripping -/

/-- The punctuation set of `_extract_word`, exactly the Python string
passed to `str.strip` (quote, apostrophe, braces and backtick written as
hex escapes). -/
def punct_chars : List Char :=
  String.toList ".,!?;:\x22\x27()[]\x7b\x7d|<>/*-+=@#$%^&~\x60"

/-- Python `s.strip(chars)`: remove leading and trailing characters
belonging to `chars`. -/
def py_strip (chars : List Char) (s : List Char) : List Char :=
  ((s.dropWhile chars.contains).reverse.dropWhile chars.contains).reverse

/-- Models `SpellChecker._extract_word`: strip punctuation to get the word,
and keep `token[len(word):]` as the "trailing" part.  (Faithful to the
source: the slice starts at `len(word)` even when leading punctuation
was stripped.) -/
def extract_word (token : List Char) : List Char × List Char :=
  let word := py_strip punct_chars token
  (word, token.drop word.length)

/-! ## Eligibility filter -/

/-- Python `s.startswith(p)` for a single pattern `p`. -/
def starts_with : List Char → List Char → Bool
  | [], _ => true
  | _ :: _, [] => false
  | p :: ps, c :: cs => p = c && starts_with ps cs

/-- Models `SpellChecker._is_url`. -/
def is_url (w : List Char) : Bool :=
  starts_with (String.toList "http://") w ||
  starts_with (String.toList "https://") w ||
  starts_with (String.toList "www.") w

/-- Models `SpellChecker._is_file_path`. -/
def is_file_path (w : List Char) : Bool :=
  w.contains '/' || w.contains '\\' || starts_with ['.'] w

/-- Models `SpellChecker._is_acronym`: `re.search(r'[A-Z]{2,}', word)` — two
consecutive ASCII uppercase letters somewhere in the word. -/
def is_acronym : List Char → Bool
  | c :: d :: rest => (c.isUpper && d.isUpper) || is_acronym (d :: rest)
  | _ => false

/-- Models `SpellChecker._is_camel_case`: length above one and an uppercase
letter somewhere after the first character. -/
def is_camel_case (w : List Char) : Bool :=
  w.length > 1 && (w.drop 1).any Char.isUpper

/-- Models `SpellChecker._has_underscores`. -/
def has_underscores (w : List Char) : Bool :=
  w.contains '_'

/-- A hexadecimal digit as in the character class `[0-9a-fA-F]`. -/
def is_hex_digit (c : Char) : Bool :=
  c.isDigit || ('a' ≤ c && c ≤ 'f') || ('A' ≤ c && c ≤ 'F')

/-- Models `SpellChecker._is_code_pattern`:
`re.match(r'^(#[0-9a-fA-F]+|0x[0-9a-fA-F]+|\d+)$', word)`.  (Words
reaching this predicate come from non-whitespace tokens, so the extra
newline `$` would tolerate before the end never occurs.) -/
def is_code_pattern (w : List Char) : Bool :=
  (match w with
   | '#' :: rest => !rest.isEmpty && rest.all is_hex_digit
   | '0' :: 'x' :: rest => !rest.isEmpty && rest.all is_hex_digit
   | _ => false) ||
  (!w.isEmpty && w.all Char.isDigit)

/-- Models `SpellChecker._should_skip_correction`: empty words and any word
matching one of the six heuristics are never auto-corrected. -/
def should_skip_correction (w : List Char) : Bool :=
  w.isEmpty || (is_url w || is_file_path w || is_acronym w ||
                is_camel_case w || has_underscores w || is_code_pattern w)

/-! ## Dictionary model

`symspellpy` is external (spec §1: "the underlying edit-distance
dictionary lookup engine" is out of scope).  A `SymSpell` value models
the two lookups the source performs: `lookup(w, Verbosity.TOP,
max_edit_distance=0)` and `lookup(w, Verbosity.CLOSEST,
max_edit_distance=2)`, each returning a ranked suggestion list. -/

/-- A `symspellpy` suggestion: term, edit distance and corpus count. -/
structure Suggestion where
  term : List Char
  distance : Nat
  count : Nat
deriving DecidableEq, Repr

/-- The loaded dictionary engine, modelled by its two lookup modes. -/
structure SymSpell where
  /-- Models `lookup(w, Verbosity.TOP, max_edit_distance=0)`. -/
  lookupExactTop : List Char → List Suggestion
  /-- Models `lookup(w, Verbosity.CLOSEST, max_edit_distance=2)`. -/
  lookupClosest : List Char → List Suggestion

/-- Python `s.lower()` (ASCII). -/
def py_lower (s : List Char) : List Char :=
  s.map Char.toLower

/-- Models `SpellChecker._word_exists_in_dictionary`: the zero-distance lookup
of the lowercased word is nonempty and its head's count exceeds 1000. -/
def word_exists_in_dictionary (sym : SymSpell) (word : List Char) : Bool :=
  match sym.lookupExactTop (py_lower word) with
  | [] => false
  | s :: _ => decide (1000 < s.count)

/-- Models `SpellChecker._get_suggestions`. -/
def get_suggestions (sym : SymSpell) (word : List Char) : List Suggestion :=
  sym.lookupClosest (py_lower word)

/-- Python `set(a) == set(b)` for strings: mutual containment of the
distinct characters. -/
def same_char_set (a b : List Char) : Bool :=
  a.all b.contains && b.all a.contains

/-- Models `SpellChecker._is_minor_typo`: at edit distance exactly 1 and
original length at least 4, the suggestion counts as a "minor typo"
precisely when `set(original.lower()) != set(suggestion.term)`. -/
def is_minor_typo (original : List Char) (s : Suggestion) : Bool :=
  if s.distance = 1 ∧ 4 ≤ original.length then
    !same_char_set (py_lower original) s.term
  else false

/-! ## Case preservation -/

/-- Python `s.isupper()` (ASCII): at least one cased character and no
lowercase character. -/
def py_isupper (s : List Char) : Bool :=
  s.any (fun c => c.isUpper || c.isLower) && !s.any Char.isLower

/-- Python `s.capitalize()` (ASCII): first character uppercased, all
remaining characters lowercased. -/
def py_capitalize : List Char → List Char
  | [] => []
  | c :: cs => c.toUpper :: cs.map Char.toLower

/-- Models `SpellChecker._preserve_case`.  The source indexes `original[0]`,
so `original` is nonempty on every call (`_apply_correction` is reached
only for words the filter found nonempty); the `[]` branch is a
placeholder for that unreachable case. -/
def preserve_case (original corrected : List Char) : List Char :=
  if py_isupper original then corrected.map Char.toUpper
  else
    match original with
    | [] => corrected
    | c :: _ => if c.isUpper then py_capitalize corrected else corrected

/-! ## Correction engine and pipeline -/

/-- Models `SpellChecker._apply_correction`. -/
def apply_correction (sym : SymSpell) (word : List Char) : List Char :=
  if word_exists_in_dictionary sym word then word
  else
    match get_suggestions sym word with
    | [] => word
    | s :: _ => if is_minor_typo word s then word else preserve_case word s.term

/-- Models `SpellChecker._correct_token`: whitespace tokens pass through; the
stripped word is either skipped (whole token passes through) or
corrected and re-joined with the trailing slice. -/
def correct_token (sym : SymSpell) (token : List Char) : List Char :=
  if py_token_isspace token then token
  else if should_skip_correction (extract_word token).1 then token
  else apply_correction sym (extract_word token).1 ++ (extract_word token).2

/-- Models `SpellChecker.correct_text`: `self.sym_spell` is `none` when the
dictionary was missing or unloadable (`_create_spell_checker` returned
`None`), in which case the input is returned unchanged. -/
def correct_text (checker : Option SymSpell) (text : List Char) : List Char :=
  match checker with
  | none => text
  | some sym => ((tokenize text).map (correct_token sym)).flatten

/-! ## Classifier command loop

Embedding of `huggingface_classifier.py`.  The zero-shot model is
external ("the zero-shot classification model and its inference
runtime" are out of scope per spec §1); it is modelled as a function
from the classify arguments to either a result or an exception
message.  Each physical stdin line is modelled by its parse outcome,
since `json.loads` is external: `blank` (empty after `strip()`),
`invalid` (a `json.JSONDecodeError`), `nonObject` (valid JSON without
a `.get` method, so `command.get` raises and the generic handler
answers), or `cmd` (a JSON object, modelled by the fields the loop
reads; a non-string `"type"` value behaves like an absent one). -/

/-- The dictionary returned by the external zero-shot pipeline (its
floating-point scores are opaque data here, modelled as rationals). -/
structure ZeroShotResult where
  labels : List String
  scores : List Rat
  sequence : String
deriving DecidableEq

/-- The external pipeline: text, candidate labels and the multi-label
flag to either a result or the message of a raised exception. -/
def ClassifyFn : Type :=
  String → List String → Bool → Except String ZeroShotResult

/-- One JSON response object written to stdout, abstracted to the
fields the source sets. -/
inductive Resp
  /-- `{"type": "initialized", "model": ..., "status": "success"}`. -/
  | initialized (model : String)
  /-- `{"type": "classification", "labels": ..., "scores": ..., "sequence": ...}`. -/
  | classification (labels : List String) (scores : List Rat) (sequence : String)
  /-- `{"error": "Pipeline not initialized"}` — note: no `"type"` key. -/
  | pipeNotInitialized
  /-- `{"type": "error", "error": "Classification failed: ..."}`. -/
  | classifyError (msg : String)
  /-- `{"type": "pong", "status": "ready"}`. -/
  | pong
  /-- `{"type": "shutdown", "status": "acknowledged"}`. -/
  | shutdownAck
  /-- `{"type": "error", "error": "Invalid JSON: ..."}`. -/
  | invalidJson (msg : String)
  /-- `{"type": "error", "error": "Processing error: ..."}`. -/
  | processingError (msg : String)
  /-- `{"type": "error", "error": "Unknown command type: ..."}`. -/
  | unknownCommand (t : Option String)
  /-- `{"type": "error", "error": "Failed to initialize model: ..."}`. -/
  | initFailed (msg : String)
  /-- `{"type": "shutdown", "status": "complete"}` — the `finally` message. -/
  | shutdownComplete
deriving DecidableEq

/-- The `"type"` field of a response (`result.get("type")`). -/
def resp_type : Resp → Option String
  | .initialized _ => some "initialized"
  | .classification .. => some "classification"
  | .pipeNotInitialized => none
  | .classifyError _ => some "error"
  | .pong => some "pong"
  | .shutdownAck => some "shutdown"
  | .invalidJson _ => some "error"
  | .processingError _ => some "error"
  | .unknownCommand _ => some "error"
  | .initFailed _ => some "error"
  | .shutdownComplete => some "shutdown"

/-- Models the `sequence` truncation in `HuggingFaceClassifier.classify`:
`result['sequence'][:100] + "..."` when longer than 100 characters. -/
def truncate_sequence (s : String) : String :=
  if s.length > 100 then s.take 100 ++ "..." else s

/-- Models `HuggingFaceClassifier.classify`: guard on an uninitialized
pipeline, call the external pipeline, format the result, and catch any
exception as an error response. -/
def classify_method (pipe : Option ClassifyFn) (text : String)
    (labels : List String) (multi_label : Bool) : Resp :=
  match pipe with
  | none => .pipeNotInitialized
  | some p =>
    match p text labels multi_label with
    | .ok r => .classification r.labels r.scores (truncate_sequence r.sequence)
    | .error e => .classifyError ("Classification failed: " ++ e)

/-- A parsed JSON command object, restricted to the keys the source
reads, with the `dict.get` defaults already applied. -/
structure Command where
  type : Option String
  text : String
  labels : List String
  multi_label : Bool
deriving DecidableEq

/-- Models `HuggingFaceClassifier.process_command`: dispatch on the
`"type"` string. -/
def process_command (pipe : Option ClassifyFn) (cmd : Command) : Resp :=
  if cmd.type = some "classify" then
    classify_method pipe cmd.text cmd.labels cmd.multi_label
  else if cmd.type = some "ping" then .pong
  else if cmd.type = some "shutdown" then .shutdownAck
  else .unknownCommand cmd.type

/-- One stdin line, modelled by its parse outcome (see the section
comment). -/
inductive Line
  | blank
  | invalid (msg : String)
  | nonObject (msg : String)
  | cmd (c : Command)
deriving DecidableEq

/-- Why the stdin loop of `main` stopped: input exhausted, or the
`break` after a response whose `"type"` is `"shutdown"`. -/
inductive ExitReason
  | eof
  | shutdownCmd
deriving DecidableEq

/-- Models the `for line in sys.stdin` loop of `main`: the responses
written, in order, and why the loop stopped. -/
def run_loop (pipe : Option ClassifyFn) : List Line → List Resp × ExitReason
  | [] => ([], .eof)
  | Line.blank :: rest => run_loop pipe rest
  | Line.invalid m :: rest =>
    let p := run_loop pipe rest
    (Resp.invalidJson ("Invalid JSON: " ++ m) :: p.1, p.2)
  | Line.nonObject m :: rest =>
    let p := run_loop pipe rest
    (Resp.processingError ("Processing error: " ++ m) :: p.1, p.2)
  | Line.cmd c :: rest =>
    let r := process_command pipe c
    if resp_type r = some "shutdown" then ([r], .shutdownCmd)
    else
      let p := run_loop pipe rest
      (r :: p.1, p.2)

/-- Models `main`: initialization (`.error` when `pipeline(...)` raised,
which prints an error object and exits with code 1), then the loop, then
the `finally` shutdown-complete message; returns the full stdout
transcript and the exit code. -/
def run_main (init : Except String ClassifyFn) (model : String)
    (lines : List Line) : List Resp × Nat :=
  match init with
  | .error e => ([Resp.initFailed ("Failed to initialize model: " ++ e)], 1)
  | .ok pipe =>
    let p := run_loop (some pipe) lines
    (Resp.initialized model :: p.1 ++ [Resp.shutdownComplete], 0)

/-! ## Concrete dictionary and pipeline instances used by witnesses and
counterexamples -/

/-- A dictionary that knows `hello` (count 50000): the closest-match
lookup at distance up to 2 proposes `hello` for `helllo`, and nothing
sits at distance 0 from `helllo`. -/
def sym_hello : SymSpell where
  lookupExactTop := fun _ => []
  lookupClosest := fun w =>
    if w = String.toList "helllo" then [⟨String.toList "hello", 1, 50000⟩] else []

/-- A dictionary whose top ranked suggestion for any lookup is `abce`
at distance 1 with count 10. -/
def sym_abce : SymSpell where
  lookupExactTop := fun _ => []
  lookupClosest := fun _ => [⟨String.toList "abce", 1, 10⟩]

/-- A dictionary whose top ranked suggestion for any lookup is `ab` at
distance 1 with count 5. -/
def sym_ab : SymSpell where
  lookupExactTop := fun _ => []
  lookupClosest := fun _ => [⟨String.toList "ab", 1, 5⟩]

/-- A dictionary holding `the` as a high-frequency exact match while
ranking an unrelated term first in the distance-2 path. -/
def sym_the_exact : SymSpell where
  lookupExactTop := fun w =>
    if w = String.toList "the" then [⟨String.toList "the", 0, 2000⟩] else []
  lookupClosest := fun _ => [⟨String.toList "xxx", 1, 5⟩]

/-- A pipeline stub whose every call raises. -/
def triv_pipe : ClassifyFn :=
  fun _ _ _ => Except.error "model unavailable"

/-! ## Tokenizer lemmas -/

/-- Flattening the worker's output restores the pending run and the
remaining input. -/
theorem tok_aux_flatten (l : List Char) : ∀ (cur : List Char) (b : Bool),
    (tok_aux cur b l).flatten = cur.reverse ++ l := by
  induction l with
  | nil => intro cur b; simp [tok_aux]
  | cons c cs ih =>
    intro cur b
    by_cases h : is_py_space c = b
    · rw [tok_aux, if_pos h, ih]
      simp
    · rw [tok_aux, if_neg h]
      simp [ih]

/-- Tokenization is lossless: flattening the tokens restores the text. -/
theorem tokenize_flatten (text : List Char) : (tokenize text).flatten = text := by
  cases text with
  | nil => rfl
  | cons c cs => rw [tokenize, tok_aux_flatten]; rfl

/-- Every token the worker emits is nonempty and homogeneous in
whitespace class, provided the pending run is. -/
theorem tok_aux_tokens (l : List Char) : ∀ (cur : List Char) (b : Bool),
    cur ≠ [] → (∀ c ∈ cur, is_py_space c = b) →
    ∀ t ∈ tok_aux cur b l, t ≠ [] ∧ ∃ k, ∀ c ∈ t, is_py_space c = k := by
  induction l with
  | nil =>
    intro cur b hne hall t ht
    simp only [tok_aux, List.mem_singleton] at ht
    subst ht
    refine ⟨by simpa using hne, b, fun c hc => hall c (List.mem_reverse.mp hc)⟩
  | cons c cs ih =>
    intro cur b hne hall t ht
    rw [tok_aux] at ht
    by_cases h : is_py_space c = b
    · rw [if_pos h] at ht
      refine ih (c :: cur) b (by simp) ?_ t ht
      intro d hd
      rcases List.mem_cons.mp hd with rfl | hd
      · exact h
      · exact hall d hd
    · rw [if_neg h] at ht
      rcases List.mem_cons.mp ht with rfl | ht
      · exact ⟨by simpa using hne, b, fun d hd => hall d (List.mem_reverse.mp hd)⟩
      · exact ih [c] (is_py_space c) (by simp) (by simp) t ht

/-- The class of a reversed homogeneous nonempty run is the run's
class. -/
theorem tok_class_reverse (cur : List Char) (b : Bool) (hne : cur ≠ [])
    (hall : ∀ c ∈ cur, is_py_space c = b) : tok_class cur.reverse = b := by
  cases hr : cur.reverse with
  | nil => exact absurd (List.reverse_eq_nil_iff.mp hr) hne
  | cons h t =>
    have hm : h ∈ cur := List.mem_reverse.mp (hr ▸ List.mem_cons_self h t)
    simp [tok_class, hall h hm]

/-- Consecutive tokens the worker emits have opposite whitespace
classes, and the first one has the pending run's class. -/
theorem tok_aux_chain (l : List Char) : ∀ (cur : List Char) (b : Bool),
    cur ≠ [] → (∀ c ∈ cur, is_py_space c = b) →
    List.Chain' (fun t u => tok_class t ≠ tok_class u) (tok_aux cur b l) ∧
    (tok_aux cur b l).head?.elim True (fun t => tok_class t = b) := by
  induction l with
  | nil =>
    intro cur b hne hall
    exact ⟨by simp [tok_aux], by simp [tok_aux, tok_class_reverse cur b hne hall]⟩
  | cons c cs ih =>
    intro cur b hne hall
    by_cases h : is_py_space c = b
    · rw [tok_aux, if_pos h]
      refine ih (c :: cur) b (by simp) ?_
      intro d hd
      rcases List.mem_cons.mp hd with rfl | hd
      · exact h
      · exact hall d hd
    · rw [tok_aux, if_neg h]
      obtain ⟨hch, hhd⟩ := ih [c] (is_py_space c) (by simp) (by simp)
      constructor
      · refine List.chain'_cons'.mpr ⟨?_, hch⟩
        intro y hy
        have hy' : tok_class y = is_py_space c := by
          rw [hy] at hhd
          exact hhd
        rw [tok_class_reverse cur b hne hall, hy']
        exact fun e => h e.symm
      · simp [tok_class_reverse cur b hne hall]

/-- **C4** — Tokenizer losslessness: concatenating the tokens of
`tokenize` in order reproduces the input exactly; every token is a
nonempty run of characters of a single whitespace class; consecutive
tokens alternate between the two classes (so each run is maximal, with
no gaps or overlaps); and the empty input yields the empty sequence. -/
theorem c4_tokenizer_lossless :
    (∀ text : List Char, (tokenize text).flatten = text) ∧
    (∀ text : List Char, ∀ t ∈ tokenize text,
        t ≠ [] ∧ ∃ b, ∀ c ∈ t, is_py_space c = b) ∧
    (∀ text : List Char,
        List.Chain' (fun t u => tok_class t ≠ tok_class u) (tokenize text)) ∧
    tokenize [] = [] := by
  refine ⟨tokenize_flatten, ?_, ?_, rfl⟩
  · intro text t ht
    cases text with
    | nil => simp [tokenize] at ht
    | cons c cs => exact tok_aux_tokens cs [c] (is_py_space c) (by simp) (by simp) t ht
  · intro text
    cases text with
    | nil => simp [tokenize]
    | cons c cs => exact (tok_aux_chain cs [c] (is_py_space c) (by simp) (by simp)).1

/-- Witness for C4 at the concrete text `"ab  cd"` and its whitespace
token. -/
theorem c4_tokenizer_lossless_witness :
    (tokenize (String.toList "ab  cd")).flatten = String.toList "ab  cd" ∧
    ([' ', ' '] ≠ ([] : List Char) ∧ ∃ b, ∀ c ∈ [' ', ' '], is_py_space c = b) :=
  ⟨c4_tokenizer_lossless.1 (String.toList "ab  cd"),
   c4_tokenizer_lossless.2.1 (String.toList "ab  cd") [' ', ' '] (by decide)⟩

/-! ## Correction-engine claims -/

/-- **C1 (counterexample)** — the claim as stated fails: `helllo` has
length at least 4, its top suggestion `hello` is at edit distance
exactly 1, the two share the same set of distinct characters, yet the
correction engine replaces `helllo` by `hello` instead of returning it
unchanged (`_is_minor_typo` keeps the original exactly when the sets
differ). -/
theorem c1_minor_typo_counterexample :
    (get_suggestions sym_hello (String.toList "helllo")).head?.map Suggestion.distance
      = some 1 ∧
    4 ≤ (String.toList "helllo").length ∧
    same_char_set (py_lower (String.toList "helllo")) (String.toList "hello") = true ∧
    apply_correction sym_hello (String.toList "helllo") = String.toList "hello" ∧
    String.toList "hello" ≠ String.toList "helllo" := by
  refine ⟨rfl, by decide, by decide, rfl, by decide⟩

/-- **C1 (amended)** — Minor-typo guard as the code implements it: for
every word of length at least 4 whose top dictionary suggestion is at
edit distance exactly 1 and whose set of distinct characters
(lowercased) DIFFERS from the set of distinct characters of the
suggestion's term, the correction engine returns the original word
unchanged. -/
theorem c1_minor_typo_guard_amended (sym : SymSpell) (w : List Char)
    (s : Suggestion) (rest : List Suggestion)
    (hs : get_suggestions sym w = s :: rest) (hd : s.distance = 1)
    (hl : 4 ≤ w.length) (hset : same_char_set (py_lower w) s.term = false) :
    apply_correction sym w = w := by
  unfold apply_correction
  by_cases hex : word_exists_in_dictionary sym w = true
  · simp [hex]
  · have hmt : is_minor_typo w s = true := by
      unfold is_minor_typo
      rw [if_pos ⟨hd, hl⟩, hset]
      rfl
    simp [hex, hs, hmt]

/-- Witness for the amended C1: `abcd` with top suggestion `abce`
(distance 1, different character sets) is kept. -/
theorem c1_minor_typo_guard_amended_witness :
    apply_correction sym_abce (String.toList "abcd") = String.toList "abcd" :=
  c1_minor_typo_guard_amended sym_abce (String.toList "abcd")
    ⟨String.toList "abce", 1, 10⟩ [] rfl rfl (by decide) (by decide)

/-- **C2 (code bug)** — Punctuation preservation: the first half of the
claim holds (`"helllo,"` becomes `"hello,"`), but `_extract_word`
strips punctuation from BOTH ends while reattaching only
`token[len(word):]`, so `"(helllo)"` becomes `"helloo)"` rather than
the `"(hello)"` the claim and the spec's own §8 test require. -/
theorem c2_punctuation_code_bug_eval :
    correct_text (some sym_hello) (String.toList "helllo,") = String.toList "hello," ∧
    correct_text (some sym_hello) (String.toList "(helllo)") = String.toList "helloo)" ∧
    String.toList "helloo)" ≠ String.toList "(hello)" := by
  refine ⟨rfl, rfl, by decide⟩

/-- **C3** — Skip-list correctness: each of the eight listed inputs,
given to `correct_text` as a single token, is returned byte-for-byte
unchanged, for every dictionary content (the dictionary `sym` is
arbitrary and is never consulted on these paths). -/
theorem c3_skip_list_unchanged (sym : SymSpell) :
    correct_text (some sym) (String.toList "http://example.com")
      = String.toList "http://example.com" ∧
    correct_text (some sym) (String.toList "C:\\path\\to\\file")
      = String.toList "C:\\path\\to\\file" ∧
    correct_text (some sym) (String.toList "NASA") = String.toList "NASA" ∧
    correct_text (some sym) (String.toList "getUserId") = String.toList "getUserId" ∧
    correct_text (some sym) (String.toList "max_value") = String.toList "max_value" ∧
    correct_text (some sym) (String.toList "#FF00FF") = String.toList "#FF00FF" ∧
    correct_text (some sym) (String.toList "0x1A") = String.toList "0x1A" ∧
    correct_text (some sym) (String.toList "42") = String.toList "42" :=
  ⟨rfl, rfl, rfl, rfl, rfl, rfl, rfl, rfl⟩

/-- **C6** — Degradation to identity: when the dictionary is
unavailable (`_create_spell_checker` returned `None`, i.e. the checker
is `none`), `correct_text` returns every input unchanged; the
definition is total, so this path cannot raise. -/
theorem c6_missing_dictionary_identity :
    ∀ text : List Char, correct_text none text = text :=
  fun _ => rfl

/-- **C7** — High-frequency short circuit: whenever the zero-distance
lookup of the lowercased word starts with a suggestion whose corpus
count exceeds 1000, the correction engine returns the word unchanged;
the ranked suggestion path `closestLookup` is universally quantified
and unused, so it is never consulted. -/
theorem c7_high_frequency_short_circuit
    (exactLookup closestLookup : List Char → List Suggestion) (w : List Char)
    (s : Suggestion) (rest : List Suggestion)
    (h : exactLookup (py_lower w) = s :: rest) (hc : 1000 < s.count) :
    apply_correction ⟨exactLookup, closestLookup⟩ w = w := by
  have hex : word_exists_in_dictionary ⟨exactLookup, closestLookup⟩ w = true := by
    have h' : (⟨exactLookup, closestLookup⟩ : SymSpell).lookupExactTop (py_lower w)
        = s :: rest := h
    unfold word_exists_in_dictionary
    rw [h']
    exact decide_eq_true hc
  unfold apply_correction
  simp [hex]

/-- Witness for C7: `the` sits in `sym_the_exact` at distance 0 with
count 2000 and is returned unchanged. -/
theorem c7_high_frequency_short_circuit_witness :
    apply_correction sym_the_exact (String.toList "the") = String.toList "the" :=
  c7_high_frequency_short_circuit sym_the_exact.lookupExactTop
    sym_the_exact.lookupClosest (String.toList "the")
    ⟨String.toList "the", 0, 2000⟩ [] rfl (by decide)

/-- **C9** — Skipped tokens are identities: `correct_text` is the
concatenation of `correct_token` over the tokens, and every token that
is whitespace-only or whose stripped word the eligibility filter skips
(which includes empty words) is reproduced byte-for-byte, leading
punctuation included, for every dictionary content. -/
theorem c9_skipped_tokens_identity :
    (∀ (sym : SymSpell) (token : List Char),
        py_token_isspace token = true ∨
          should_skip_correction (extract_word token).1 = true →
        correct_token sym token = token) ∧
    (∀ (sym : SymSpell) (text : List Char),
        correct_text (some sym) text
          = ((tokenize text).map (correct_token sym)).flatten) := by
  constructor
  · intro sym token h
    unfold correct_token
    rcases h with h | h
    · simp [h]
    · by_cases hs : py_token_isspace token = true
      · simp [hs]
      · simp [hs, h]
  · intro sym text
    rfl

/-- Witness for C9: the skippable token `max_value` passes through a
dictionary that would otherwise rewrite everything. -/
theorem c9_skipped_tokens_identity_witness :
    correct_token sym_ab (String.toList "max_value") = String.toList "max_value" :=
  c9_skipped_tokens_identity.1 sym_ab (String.toList "max_value") (Or.inr (by decide))

/-! ## Case-preservation claims -/

/-- Case rule exactly as claim C5 states it: `corrected` entirely
uppercased when `original` is entirely uppercase letters; otherwise,
when `original`'s first character is uppercase, `corrected` with its
first character uppercased and the remaining characters exactly as
returned by the dictionary; otherwise `corrected` unmodified. -/
def apply_case_spec (original corrected : List Char) : List Char :=
  if !original.isEmpty && original.all Char.isUpper then
    corrected.map Char.toUpper
  else if original.head?.elim false Char.isUpper then
    match corrected with
    | [] => []
    | c :: cs => c.toUpper :: cs
  else corrected

/-- Case rule as the code implements it (the amended claim): entirely
uppercased when `original` contains a letter and no lowercase letter
(Python `isupper`); otherwise, when the first character is uppercase,
the first character of `corrected` uppercased and the REMAINING
characters LOWERCASED (Python `capitalize`); otherwise unmodified. -/
def apply_case_amended (original corrected : List Char) : List Char :=
  if original.any (fun c => c.isUpper || c.isLower) && !original.any Char.isLower then
    corrected.map Char.toUpper
  else if original.head?.elim false Char.isUpper then
    match corrected with
    | [] => []
    | c :: cs => c.toUpper :: cs.map Char.toLower
  else corrected

/-- **C5 (counterexample)** — the claim as stated fails: at
`original = "Teh"`, `corrected = "aBc"` the claim prescribes `"ABc"`
(tail kept as returned), but `_preserve_case` uses Python
`capitalize`, which lowercases the tail, producing `"Abc"`. -/
theorem c5_case_preservation_counterexample :
    apply_case_spec (String.toList "Teh") (String.toList "aBc") = String.toList "ABc" ∧
    preserve_case (String.toList "Teh") (String.toList "aBc") = String.toList "Abc" ∧
    String.toList "Abc" ≠ String.toList "ABc" := by
  refine ⟨rfl, rfl, by decide⟩

/-- **C5 (amended)** — on every nonempty original (the only calls the
pipeline makes), `_preserve_case` implements the amended rule
`apply_case_amended`; in particular correcting `TEH` with suggestion
`the` yields `THE`, `Teh` yields `The`, and `teh` yields `the`. -/
theorem c5_case_preservation_amended :
    (∀ original corrected : List Char, original ≠ [] →
        preserve_case original corrected = apply_case_amended original corrected) ∧
    preserve_case (String.toList "TEH") (String.toList "the") = String.toList "THE" ∧
    preserve_case (String.toList "Teh") (String.toList "the") = String.toList "The" ∧
    preserve_case (String.toList "teh") (String.toList "the") = String.toList "the" := by
  refine ⟨?_, rfl, rfl, rfl⟩
  intro original corrected hne
  unfold preserve_case apply_case_amended py_isupper
  cases original with
  | nil => exact absurd rfl hne
  | cons c rest =>
    by_cases hu : (((c :: rest).any fun d => d.isUpper || d.isLower)
        && !(c :: rest).any Char.isLower) = true
    · rw [if_pos hu, if_pos hu]
    · rw [if_neg hu, if_neg hu]
      by_cases hc : c.isUpper = true
      · simp only [List.head?_cons, Option.elim, hc, if_pos]
        cases corrected with
        | nil => rfl
        | cons d ds => rfl
      · simp only [List.head?_cons, Option.elim, hc, if_neg]
        simp [hc]

/-- Witness for the amended C5 at `original = "teh"`,
`corrected = "xY"`. -/
theorem c5_case_preservation_amended_witness :
    preserve_case (String.toList "teh") (String.toList "xY")
      = apply_case_amended (String.toList "teh") (String.toList "xY") :=
  c5_case_preservation_amended.1 (String.toList "teh") (String.toList "xY") (by decide)

/-! ## Reachability of the all-uppercase branch (C10) -/

/-- **C10 (counterexample)** — the claim's "reachable only for
single-character words" is false: the two-character word `A1` passes
the eligibility filter (no uppercase after the first character, not an
acronym, not a code pattern), satisfies Python `isupper` (its only
cased character is uppercase), and the full pipeline sends it through
the all-uppercase branch: the correction `ab` comes out entirely
uppercased as `AB`, not capitalized as `Ab`. -/
theorem c10_all_upper_counterexample :
    should_skip_correction (String.toList "A1") = false ∧
    py_isupper (String.toList "A1") = true ∧
    (String.toList "A1").length = 2 ∧
    correct_text (some sym_ab) (String.toList "A1") = String.toList "AB" ∧
    String.toList "AB" ≠ String.toList "Ab" := by
  refine ⟨rfl, rfl, rfl, rfl, by decide⟩

/-- **C10 (amended)** — every word that passes the eligibility filter
has no uppercase letter after its first character, and hence no word
of length at least 2 consisting entirely of uppercase LETTERS (such as
`TEH`) is ever passed to the correction engine; the all-uppercase
branch nevertheless remains reachable for multi-character words whose
cased characters stop at an uppercase first letter (e.g. `A1`). -/
theorem c10_filter_excludes_upper_tail :
    (∀ w : List Char, should_skip_correction w = false →
        ∀ c ∈ w.drop 1, c.isUpper = false) ∧
    (∀ w : List Char, should_skip_correction w = false → 2 ≤ w.length →
        ¬ w.all Char.isUpper = true) := by
  have main : ∀ w : List Char, should_skip_correction w = false →
      ∀ c ∈ w.drop 1, c.isUpper = false := by
    intro w hw c hc
    have hcc : is_camel_case w = false := by
      by_contra hne
      have htrue : is_camel_case w = true := by
        revert hne; cases is_camel_case w <;> simp
      unfold should_skip_correction at hw
      rw [htrue] at hw
      simp at hw
    unfold is_camel_case at hcc
    rcases Bool.and_eq_false_iff.mp hcc with h1 | h2
    · have hlen : ¬ w.length > 1 := of_decide_eq_false h1
      have hnil : w.drop 1 = [] := List.drop_eq_nil_of_le (Nat.not_lt.mp hlen)
      rw [hnil] at hc
      simp at hc
    · have := List.any_eq_false.mp h2 c hc
      simpa using this
  refine ⟨main, ?_⟩
  intro w hw hlen hall
  cases w with
  | nil => simp at hlen
  | cons a rest =>
    cases rest with
    | nil => simp at hlen
    | cons b rest2 =>
      have hb : b.isUpper = false := main _ hw b (by simp)
      have hb' : b.isUpper = true := List.all_eq_true.mp hall b (by simp)
      rw [hb] at hb'
      cases hb'

/-- Witness for the amended C10 at the candidate word `ab`. -/
theorem c10_filter_excludes_upper_tail_witness :
    Char.isUpper 'b' = false ∧ ¬ (String.toList "Ab").all Char.isUpper = true :=
  ⟨c10_filter_excludes_upper_tail.1 (String.toList "ab") (by decide) 'b' (by decide),
   c10_filter_excludes_upper_tail.2 (String.toList "Ab") (by decide) (by decide)⟩

/-! ## Classifier-loop claims (C8) -/

/-- Unfolding of `run_loop` on a command line. -/
theorem run_loop_cmd (pipe : Option ClassifyFn) (c : Command) (rest : List Line) :
    run_loop pipe (Line.cmd c :: rest) =
      if resp_type (process_command pipe c) = some "shutdown" then
        ([process_command pipe c], ExitReason.shutdownCmd)
      else
        (process_command pipe c :: (run_loop pipe rest).1, (run_loop pipe rest).2) := by
  by_cases hb : resp_type (process_command pipe c) = some "shutdown" <;>
    simp [run_loop, hb]

/-- Classification answers (including the uninitialized-pipeline and
exception cases) never carry the `"type"` value `"shutdown"`. -/
theorem resp_type_classify (pipe : Option ClassifyFn) (text : String)
    (labels : List String) (ml : Bool) :
    resp_type (classify_method pipe text labels ml) ≠ some "shutdown" := by
  cases pipe with
  | none => exact fun h => Option.noConfusion h
  | some p =>
    cases hm : p text labels ml with
    | ok r =>
      simp only [classify_method, hm, resp_type]
      decide
    | error e =>
      simp only [classify_method, hm, resp_type]
      decide

/-- The only response `process_command` can produce whose `"type"` is
`"shutdown"` is the acknowledgment of a `shutdown` command. -/
theorem process_command_shutdown (pipe : Option ClassifyFn) (c : Command)
    (h : resp_type (process_command pipe c) = some "shutdown") :
    process_command pipe c = Resp.shutdownAck := by
  unfold process_command at h ⊢
  by_cases h1 : c.type = some "classify"
  · rw [if_pos h1] at h
    exact absurd h (resp_type_classify pipe c.text c.labels c.multi_label)
  · rw [if_neg h1] at h ⊢
    by_cases h2 : c.type = some "ping"
    · rw [if_pos h2] at h
      exact absurd (Option.some.inj h) (by decide)
    · rw [if_neg h2] at h ⊢
      by_cases h3 : c.type = some "shutdown"
      · rw [if_pos h3]
      · rw [if_neg h3] at h
        exact absurd (Option.some.inj h) (by decide)

/-- **C8 (counterexample)** — the claim's "exits only after
acknowledging a shutdown command or on a fatal initialization error"
is false: when standard input ends without a `shutdown` command (here:
empty input, successful initialization), the process still terminates,
with exit code 0, an `eof` loop reason and no shutdown acknowledgment
anywhere in its output. -/
theorem c8_exit_counterexample :
    run_main (Except.ok triv_pipe) "facebook/bart-large-mnli" []
      = ([Resp.initialized "facebook/bart-large-mnli", Resp.shutdownComplete], 0) ∧
    (run_loop (some triv_pipe) ([] : List Line)).2 = ExitReason.eof ∧
    ExitReason.eof ≠ ExitReason.shutdownCmd ∧
    Resp.shutdownAck ∉ (run_main (Except.ok triv_pipe) "facebook/bart-large-mnli" []).1 := by
  refine ⟨rfl, rfl, by decide, by decide⟩

/-- **C8 (amended)** — for every stdin line that is not valid JSON the
classifier writes exactly one `{"type": "error", ...}` response and
then processes the remaining lines exactly as it would have (same
responses, same exit reason); and whenever the loop stops for a reason
other than end of input, its last response is the acknowledgment of a
`shutdown` command.  (Initialization failure is the separate `.error`
branch of `run_main`: one error object and exit code 1.) -/
theorem c8_error_recovery_amended :
    (∀ (pipe : Option ClassifyFn) (m : String) (rest : List Line),
        run_loop pipe (Line.invalid m :: rest)
          = (Resp.invalidJson ("Invalid JSON: " ++ m) :: (run_loop pipe rest).1,
             (run_loop pipe rest).2)) ∧
    (∀ (pipe : Option ClassifyFn) (lines : List Line),
        (run_loop pipe lines).2 = ExitReason.shutdownCmd →
        (run_loop pipe lines).1.getLast? = some Resp.shutdownAck) := by
  constructor
  · intro pipe m rest
    rfl
  · intro pipe lines
    induction lines with
    | nil => intro h; exact ExitReason.noConfusion h
    | cons l rest ih =>
      intro h
      cases l with
      | blank => exact ih h
      | invalid m =>
        have h' : (run_loop pipe rest).2 = ExitReason.shutdownCmd := h
        have hx := ih h'
        show (Resp.invalidJson ("Invalid JSON: " ++ m)
            :: (run_loop pipe rest).1).getLast? = some Resp.shutdownAck
        cases hxs : (run_loop pipe rest).1 with
        | nil => rw [hxs] at hx; simp at hx
        | cons y ys => rw [hxs] at hx; rw [List.getLast?_cons_cons]; exact hx
      | nonObject m =>
        have h' : (run_loop pipe rest).2 = ExitReason.shutdownCmd := h
        have hx := ih h'
        show (Resp.processingError ("Processing error: " ++ m)
            :: (run_loop pipe rest).1).getLast? = some Resp.shutdownAck
        cases hxs : (run_loop pipe rest).1 with
        | nil => rw [hxs] at hx; simp at hx
        | cons y ys => rw [hxs] at hx; rw [List.getLast?_cons_cons]; exact hx
      | cmd c =>
        rw [run_loop_cmd] at h ⊢
        by_cases hb : resp_type (process_command pipe c) = some "shutdown"
        · rw [if_pos hb]
          simp [process_command_shutdown pipe c hb]
        · rw [if_neg hb] at h ⊢
          have hx := ih h
          cases hxs : (run_loop pipe rest).1 with
          | nil => rw [hxs] at hx; simp at hx
          | cons y ys => rw [hxs] at hx; rw [List.getLast?_cons_cons]; exact hx

/-- Witness for the amended C8: one malformed line against the stub
pipeline, and a `shutdown` command whose acknowledgment is the last
(and only) response. -/
theorem c8_error_recovery_amended_witness :
    run_loop (some triv_pipe) [Line.invalid "x"]
      = (Resp.invalidJson ("Invalid JSON: " ++ "x")
           :: (run_loop (some triv_pipe) []).1,
         (run_loop (some triv_pipe) []).2) ∧
    (run_loop (some triv_pipe)
        [Line.cmd ⟨some "shutdown", "", [], false⟩]).1.getLast?
      = some Resp.shutdownAck :=
  ⟨c8_error_recovery_amended.1 (some triv_pipe) "x" [],
   c8_error_recovery_amended.2 (some triv_pipe)
     [Line.cmd ⟨some "shutdown", "", [], false⟩] (by decide)⟩

end ActiveRecall
